import Mathlib

/-!
Verification of the Elementor element-tree manipulation engine of
`mcp-wordpress-elementor`.

The TypeScript source is shallowly embedded: the recursive element tree
(`src/types/elementor-types.ts`) becomes an inductive type, JS objects become
association lists with JS insertion-order update semantics, in-place mutation
becomes explicit state passing, `try`/`catch` fallback chains become `Except`
and option chains, and the nondeterministic id generator
(`Math.random().toString(36).substring(2, 10)`) becomes an abstract stream
`gen : Nat → String` threaded with a position counter.  The external WordPress
REST client (`makeWordPressRequest`) is abstracted as a partial map from
resource kind to the stored resource, where both a GET and a POST against a
missing resource fail; `JSON.parse` / `JSON.stringify` are JS builtins and are
taken as parameters of the operations that call them.
-/

namespace ElementorSpec

/-- Arbitrary JSON values, the payload type of an element's `settings`
(`src/types/elementor-types.ts`: `z.record(z.any())`). -/
inductive JsonVal : Type where
  | null : JsonVal
  | bool (b : Bool) : JsonVal
  | num (n : Int) : JsonVal
  | str (s : String) : JsonVal
  | arr (elems : List JsonVal) : JsonVal
  | obj (fields : List (String × JsonVal)) : JsonVal

/-- JS object field write `o[k] = v`: overwrite in place if the key exists
(keeping its position in insertion order), else append the key at the end. -/
def setKey : List (String × JsonVal) → String → JsonVal → List (String × JsonVal)
  | [], k, v => [(k, v)]
  | (k', v') :: rest, k, v =>
      if k' = k then (k, v) :: rest else (k', v') :: setKey rest k v

/-- JS object field read `o[k]`: `none` plays the role of `undefined`. -/
def lookupKey : List (String × JsonVal) → String → Option JsonVal
  | [], _ => none
  | (k', v') :: rest, k => if k' = k then some v' else lookupKey rest k

/-- The recursive Elementor element (`ElementorElement` in
`src/types/elementor-types.ts`): id, elType, optional widgetType, optional
isInner, a settings object, and an ordered list of children. -/
inductive Element : Type where
  | mk (id : String) (elType : String) (widgetType : Option String)
       (isInner : Option Bool) (settings : List (String × JsonVal))
       (elements : List Element) : Element

def Element.id : Element → String
  | .mk i _ _ _ _ _ => i

def Element.elType : Element → String
  | .mk _ t _ _ _ _ => t

def Element.widgetType : Element → Option String
  | .mk _ _ w _ _ _ => w

def Element.isInner : Element → Option Bool
  | .mk _ _ _ b _ _ => b

def Element.settings : Element → List (String × JsonVal)
  | .mk _ _ _ _ s _ => s

def Element.children : Element → List Element
  | .mk _ _ _ _ _ es => es

/-- Rebuild an element with new settings (`widget.settings = ...`). -/
def Element.withSettings : Element → List (String × JsonVal) → Element
  | .mk i t w b _ es, s => .mk i t w b s es

/-- Rebuild an element with new children (`container.elements = ...`). -/
def Element.withChildren : Element → List Element → Element
  | .mk i t w b s _, es => .mk i t w b s es

/-- Placeholder element, used only to model the non-null assertion
`elementMap.get(id)!` on a code path guarded by a prior membership check. -/
def defaultElement : Element := .mk "" "" none none [] []

/-! ## Content-field mapper (`src/utils/widget-content-mapper.ts`) -/

/-- `WIDGET_CONTENT_FIELDS`: widget type → settings key of its primary
content. -/
def WIDGET_CONTENT_FIELDS (widgetType : String) : Option String :=
  if widgetType = "heading" then some "title"
  else if widgetType = "text-editor" then some "editor"
  else if widgetType = "html" then some "html"
  else if widgetType = "button" then some "text"
  else if widgetType = "icon-box" then some "title_text"
  else if widgetType = "image-box" then some "title_text"
  else if widgetType = "call-to-action" then some "title"
  else if widgetType = "testimonial" then some "testimonial_content"
  else if widgetType = "counter" then some "title"
  else if widgetType = "progress-bar" then some "title"
  else if widgetType = "tabs" then some "tabs"
  else if widgetType = "accordion" then some "tabs"
  else if widgetType = "toggle" then some "tabs"
  else if widgetType = "alert" then some "alert_title"
  else if widgetType = "price-table" then some "heading"
  else if widgetType = "price-list" then some "price_list"
  else none

/-- `getWidgetContentField`. -/
def getWidgetContentField (widgetType : String) : Option String :=
  WIDGET_CONTENT_FIELDS widgetType

/-- `getWidgetContent`: absent widgetType (or the falsy empty string), a
missing table entry, or an unset key all yield `undefined`. -/
def getWidgetContent (widget : Element) : Option JsonVal :=
  match widget.widgetType with
  | none => none
  | some wt =>
      if wt = "" then none
      else
        match WIDGET_CONTENT_FIELDS wt with
        | none => none
        | some field => lookupKey widget.settings field

/-- `setWidgetContent`: returns the updated widget and the boolean result.
The JS function mutates `widget.settings` in place and returns a `bool`; the
embedding returns the post-state paired with that `bool`.  A falsy
(`undefined` or empty) widgetType or a missing table entry returns `false`
with no mutation. -/
def setWidgetContent (widget : Element) (content : JsonVal) : Element × Bool :=
  match widget.widgetType with
  | none => (widget, false)
  | some wt =>
      if wt = "" then (widget, false)
      else
        match WIDGET_CONTENT_FIELDS wt with
        | none => (widget, false)
        | some field =>
            (widget.withSettings (setKey widget.settings field content), true)

@[simp] theorem Element.id_mk (i t w b s es) :
    (Element.mk i t w b s es).id = i := rfl

@[simp] theorem Element.elType_mk (i t w b s es) :
    (Element.mk i t w b s es).elType = t := rfl

@[simp] theorem Element.widgetType_mk (i t w b s es) :
    (Element.mk i t w b s es).widgetType = w := rfl

@[simp] theorem Element.settings_mk (i t w b s es) :
    (Element.mk i t w b s es).settings = s := rfl

@[simp] theorem Element.children_mk (i t w b s es) :
    (Element.mk i t w b s es).children = es := rfl

/-! ## Tree traversal library (`src/utils/element-traversal.ts`)

`traverseElements` takes an effectful visitor that may accumulate state and
may return `true` to halt the walk.  The embedding threads the visitor's
state `σ` explicitly: the visitor maps state, element and depth to new state
plus the halt flag, and the traversal returns final state plus whether it
was halted. -/

/-- `traverseElements`: depth-first pre-order walk over a forest; the source
visits a node, recurses into non-empty `elements`, then moves to the next
sibling, short-circuiting as soon as the visitor returns `true`. -/
def traverseElements {σ : Type} (visitor : σ → Element → Nat → σ × Bool) :
    List Element → Nat → σ → σ × Bool
  | [], _, s => (s, false)
  | Element.mk i t w b st children :: rest, depth, s =>
      let r1 := visitor s (Element.mk i t w b st children) depth
      if r1.2 then (r1.1, true)
      else if children.isEmpty then
        traverseElements visitor rest depth r1.1
      else
        let r2 := traverseElements visitor children (depth + 1) r1.1
        if r2.2 then (r2.1, true)
        else traverseElements visitor rest depth r2.1

/-- `findElementById`: first pre-order node whose id matches. -/
def findElementById (elements : List Element) (id : String) : Option Element :=
  (traverseElements
    (fun found el _ => if el.id = id then (some el, true) else (found, false))
    elements 0 none).1

/-- `findElementParent`: top-level scan first (`parent` is `none` there),
then the first pre-order node whose direct children contain the id. -/
def findElementParent (elements : List Element) (id : String) :
    Option (Option Element × Nat) :=
  match elements.findIdx? (fun e => e.id = id) with
  | some i => some (none, i)
  | none =>
      (traverseElements
        (fun res el _ =>
          match el.children.findIdx? (fun child => child.id = id) with
          | some idx => (some (some el, idx), true)
          | none => (res, false))
        elements 0 none).1

/-- `filterElements`: all pre-order nodes satisfying the predicate. -/
def filterElements (elements : List Element) (predicate : Element → Bool) :
    List Element :=
  (traverseElements
    (fun acc el _ => (if predicate el then acc ++ [el] else acc, false))
    elements 0 []).1

/-- `findWidgetsByType`. -/
def findWidgetsByType (elements : List Element) (widgetType : String) :
    List Element :=
  filterElements elements
    (fun el => el.elType == "widget" && el.widgetType == some widgetType)

/-- `flattenElements`: every node paired with its depth, in visit order. -/
def flattenElements (elements : List Element) : List (Element × Nat) :=
  (traverseElements
    (fun acc el depth => (acc ++ [(el, depth)], false))
    elements 0 []).1

/-! ## Identifier generator (`src/utils/id-generator.ts`, inlined at
`src/src/__tests__/smoke/server-smoke.test.ts:596-608`)

`generateElementId` draws from `Math.random()`; the embedding abstracts the
random source as a stream `gen : Nat → String` consumed at an explicit
position counter, one draw per generated id, in call order. -/

mutual

/-- `reassignElementIds`: returns a copy of the node whose own id is freshly
drawn and whose children are recursively rebuilt (`clone.elements.map`),
threading the draw counter in call order (root first, then children
left-to-right).  The input element is untouched — the source builds a new
object via spread and only assigns to the copy. -/
def reassignElementIds (gen : Nat → String) (ctr : Nat) :
    Element → Element × Nat
  | .mk _ t w b s children =>
      let newId := gen ctr
      let r := reassignElementIdsList gen (ctr + 1) children
      (.mk newId t w b s r.1, r.2)

def reassignElementIdsList (gen : Nat → String) (ctr : Nat) :
    List Element → List Element × Nat
  | [] => ([], ctr)
  | e :: rest =>
      let r1 := reassignElementIds gen ctr e
      let r2 := reassignElementIdsList gen r1.2 rest
      (r1.1 :: r2.1, r2.2)

end

mutual

/-- All ids of a subtree, pre-order. -/
def elementIds : Element → List String
  | .mk i _ _ _ _ children => i :: forestIds children

/-- All ids of a forest, pre-order. -/
def forestIds : List Element → List String
  | [] => []
  | e :: rest => elementIds e ++ forestIds rest

end

mutual

/-- Node count of a subtree. -/
def countNodes : Element → Nat
  | .mk _ _ _ _ _ children => 1 + countNodesList children

/-- Node count of a forest. -/
def countNodesList : List Element → Nat
  | [] => 0
  | e :: rest => countNodes e + countNodesList rest

end

mutual

/-- Erase every id in a subtree (used to state "identical up to ids"). -/
def stripIds : Element → Element
  | .mk _ t w b s children => .mk "" t w b s (stripIdsList children)

/-- Erase every id in a forest. -/
def stripIdsList : List Element → List Element
  | [] => []
  | e :: rest => stripIds e :: stripIdsList rest

end

/-- Ids drawn from the stream `gen` at positions `ctr, ctr+1, …, ctr+n-1`. -/
def genRange (gen : Nat → String) (ctr n : Nat) : List String :=
  (List.range n).map (fun k => gen (ctr + k))

theorem genRange_add (gen : Nat → String) (ctr a b : Nat) :
    genRange gen ctr (a + b) = genRange gen ctr a ++ genRange gen (ctr + a) b := by
  simp only [genRange, List.range_add, List.map_append, List.map_map]
  congr 1
  apply List.map_congr_left
  intro k _
  simp only [Function.comp_apply]
  congr 1
  omega

theorem genRange_succ_head (gen : Nat → String) (ctr n : Nat) :
    genRange gen ctr (1 + n) = gen ctr :: genRange gen (ctr + 1) n := by
  rw [genRange_add]
  simp [genRange, List.range_succ]

mutual

theorem reassign_counter : ∀ (gen : Nat → String) (ctr : Nat) (e : Element),
    (reassignElementIds gen ctr e).2 = ctr + countNodes e
  | gen, ctr, .mk _ t w b s children => by
      simp only [reassignElementIds, countNodes,
        reassignList_counter gen (ctr + 1) children]
      omega

theorem reassignList_counter : ∀ (gen : Nat → String) (ctr : Nat)
    (es : List Element),
    (reassignElementIdsList gen ctr es).2 = ctr + countNodesList es
  | _, _, [] => by simp [reassignElementIdsList, countNodesList]
  | gen, ctr, e :: rest => by
      simp only [reassignElementIdsList, countNodesList,
        reassign_counter gen ctr e,
        reassignList_counter gen (ctr + countNodes e) rest]
      omega

end

mutual

theorem reassign_ids : ∀ (gen : Nat → String) (ctr : Nat) (e : Element),
    elementIds (reassignElementIds gen ctr e).1 = genRange gen ctr (countNodes e)
  | gen, ctr, .mk _ t w b s children => by
      simp only [reassignElementIds, elementIds, countNodes,
        reassignList_ids gen (ctr + 1) children, genRange_succ_head]

theorem reassignList_ids : ∀ (gen : Nat → String) (ctr : Nat)
    (es : List Element),
    forestIds (reassignElementIdsList gen ctr es).1 =
      genRange gen ctr (countNodesList es)
  | _, _, [] => by simp [reassignElementIdsList, forestIds, countNodesList, genRange]
  | gen, ctr, e :: rest => by
      simp only [reassignElementIdsList, forestIds, countNodesList,
        reassign_ids gen ctr e, reassign_counter gen ctr e,
        reassignList_ids gen (ctr + countNodes e) rest, genRange_add]

end

mutual

theorem reassign_strip : ∀ (gen : Nat → String) (ctr : Nat) (e : Element),
    stripIds (reassignElementIds gen ctr e).1 = stripIds e
  | gen, ctr, .mk _ t w b s children => by
      simp only [reassignElementIds, stripIds,
        reassignList_strip gen (ctr + 1) children]

theorem reassignList_strip : ∀ (gen : Nat → String) (ctr : Nat)
    (es : List Element),
    stripIdsList (reassignElementIdsList gen ctr es).1 = stripIdsList es
  | _, _, [] => by simp [reassignElementIdsList, stripIdsList]
  | gen, ctr, e :: rest => by
      simp only [reassignElementIdsList, stripIdsList,
        reassign_strip gen ctr e,
        reassignList_strip gen (reassignElementIds gen ctr e).2 rest]

end

/-- C3: `reassignElementIds` returns a deep, structurally identical copy in
which every node of the subtree, including the root, carries a freshly drawn
id; `elType`, `widgetType`, `settings` and child order are preserved verbatim
at every position (the copy agrees with the input after erasing all ids); the
input is not mutated (the embedding is a pure function of the input); and,
provided the id stream is collision-free over the draws made and avoids the
ids already present in the input, the result's id set is pairwise distinct
and disjoint from the input's id set. -/
theorem C3_reassignElementIds_correct
    (gen : Nat → String) (ctr : Nat) (e : Element)
    (hinj : ∀ j, j < countNodes e → ∀ k, k < countNodes e →
      gen (ctr + j) = gen (ctr + k) → j = k)
    (hfresh : ∀ k, k < countNodes e → gen (ctr + k) ∉ elementIds e) :
    stripIds (reassignElementIds gen ctr e).1 = stripIds e ∧
    (elementIds (reassignElementIds gen ctr e).1).Nodup ∧
    ∀ i ∈ elementIds (reassignElementIds gen ctr e).1, i ∉ elementIds e := by
  refine ⟨reassign_strip gen ctr e, ?_, ?_⟩
  · rw [reassign_ids]
    exact (List.nodup_range _).map_on
      (fun j hj k hk hjk =>
        hinj j (List.mem_range.mp hj) k (List.mem_range.mp hk) hjk)
  · intro i hi
    rw [reassign_ids] at hi
    simp only [genRange, List.mem_map, List.mem_range] at hi
    obtain ⟨k, hk, rfl⟩ := hi
    exact hfresh k hk

/-- Concrete id stream for the C3 witness. -/
def c3gen : Nat → String := fun n =>
  ["aaaaaaaa", "bbbbbbbb", "cccccccc", "dddddddd"].getD n "zzzzzzzz"

/-- The id-generator unit-test fixture: a section holding a column holding
two widgets. -/
def c3fixture : Element :=
  .mk "sec1" "section" none none []
    [.mk "col1" "column" none none []
      [.mk "w1" "widget" (some "heading") none [("title", .str "Hello")] [],
       .mk "w2" "widget" (some "text-editor") none [("editor", .str "World")] []]]

/-- Witness for C3 at a concrete tree and id stream. -/
theorem C3_witness :
    stripIds (reassignElementIds c3gen 0 c3fixture).1 = stripIds c3fixture ∧
    (elementIds (reassignElementIds c3gen 0 c3fixture).1).Nodup ∧
    ∀ i ∈ elementIds (reassignElementIds c3gen 0 c3fixture).1,
      i ∉ elementIds c3fixture :=
  C3_reassignElementIds_correct c3gen 0 c3fixture (by decide) (by decide)

theorem lookupKey_setKey_same (s : List (String × JsonVal)) (k : String)
    (v : JsonVal) : lookupKey (setKey s k v) k = some v := by
  induction s with
  | nil => simp [setKey, lookupKey]
  | cons p rest ih =>
      obtain ⟨pk, pv⟩ := p
      by_cases h : pk = k
      · subst h
        simp [setKey, lookupKey]
      · simp [setKey, lookupKey, h, ih]

theorem lookupKey_setKey_other (s : List (String × JsonVal)) (k k' : String)
    (v : JsonVal) (hne : k' ≠ k) :
    lookupKey (setKey s k v) k' = lookupKey s k' := by
  induction s with
  | nil => simp [setKey, lookupKey, Ne.symm hne]
  | cons p rest ih =>
      obtain ⟨pk, pv⟩ := p
      by_cases h : pk = k
      · subst h
        simp [setKey, lookupKey, Ne.symm hne]
      · by_cases h2 : pk = k'
        · subst h2
          simp [setKey, lookupKey, h]
        · simp [setKey, lookupKey, h, h2, ih]

/-- C8: `setWidgetContent` returns `false` and leaves the widget — its
settings included — completely untouched when the node has no `widgetType`
(including the falsy empty string) or its `widgetType` has no entry in the
content-field table; otherwise it returns `true` and writes `content` under
the mapped key (creating the key if absent) while every other settings key
and every other component of the node is left unchanged. -/
theorem C8_setWidgetContent_frame (widget : Element) (content : JsonVal) :
    ((widget.widgetType = none ∨
        ∃ wt, widget.widgetType = some wt ∧ WIDGET_CONTENT_FIELDS wt = none) →
      setWidgetContent widget content = (widget, false)) ∧
    (∀ wt field, widget.widgetType = some wt →
      WIDGET_CONTENT_FIELDS wt = some field →
      (setWidgetContent widget content).2 = true ∧
      lookupKey (setWidgetContent widget content).1.settings field =
        some content ∧
      (∀ k, k ≠ field →
        lookupKey (setWidgetContent widget content).1.settings k =
          lookupKey widget.settings k) ∧
      (setWidgetContent widget content).1.id = widget.id ∧
      (setWidgetContent widget content).1.elType = widget.elType ∧
      (setWidgetContent widget content).1.widgetType = widget.widgetType ∧
      (setWidgetContent widget content).1.isInner = widget.isInner ∧
      (setWidgetContent widget content).1.children = widget.children) := by
  obtain ⟨i, t, w, b, s, es⟩ := widget
  constructor
  · rintro (hnone | ⟨wt, hwt, htab⟩)
    · simp only [Element.widgetType_mk] at hnone
      simp [setWidgetContent, hnone]
    · simp only [Element.widgetType_mk] at hwt
      by_cases hemp : wt = ""
      · simp [setWidgetContent, hwt, hemp]
      · simp [setWidgetContent, hwt, hemp, htab]
  · intro wt field hwt htab
    simp only [Element.widgetType_mk] at hwt
    subst hwt
    have hemp : wt ≠ "" := by
      intro h
      rw [h] at htab
      simp [WIDGET_CONTENT_FIELDS] at htab
    simp only [setWidgetContent, Element.widgetType_mk, Element.settings_mk,
      Element.withSettings, htab, if_neg hemp]
    refine ⟨by trivial, ?_, ?_, by trivial, by trivial, by trivial, by trivial,
      by trivial⟩
    · exact lookupKey_setKey_same s field content
    · intro k hk
      exact lookupKey_setKey_other s field k content hk

/-- The unit-test fixture "should create field if it does not exist": a
heading widget whose settings lack the mapped `title` key. -/
def c8fixture : Element :=
  .mk "w6" "widget" (some "heading") none [("other_field", .str "value")] []

/-- Witness for C8: setting content on the heading fixture succeeds, writes
`title`, and leaves `other_field` unchanged. -/
theorem C8_witness :
    (setWidgetContent c8fixture (.str "New Title")).2 = true ∧
    lookupKey (setWidgetContent c8fixture (.str "New Title")).1.settings
      "title" = some (.str "New Title") ∧
    lookupKey (setWidgetContent c8fixture (.str "New Title")).1.settings
      "other_field" = lookupKey c8fixture.settings "other_field" := by
  obtain ⟨-, h⟩ := C8_setWidgetContent_frame c8fixture (.str "New Title")
  obtain ⟨h1, h2, h3, -⟩ := h "heading" "title" rfl rfl
  exact ⟨h1, h2, h3 "other_field" (by decide)⟩

/-! ## Pre-order traversal, stated independently (spec wording of §4.2) -/

mutual

/-- Spec-side pre-order: visit a node, then its whole subtree, with the
children one level deeper. -/
def preorderElement (depth : Nat) : Element → List (Element × Nat)
  | .mk i t w b s children =>
      (Element.mk i t w b s children, depth) ::
        preorderForest (depth + 1) children

/-- Spec-side pre-order over a forest: a node's whole subtree comes before
its next sibling. -/
def preorderForest (depth : Nat) : List Element → List (Element × Nat)
  | [] => []
  | e :: rest => preorderElement depth e ++ preorderForest depth rest

end

theorem traverse_flatten : ∀ (es : List Element) (d : Nat)
    (acc : List (Element × Nat)),
    traverseElements (fun a el depth => (a ++ [(el, depth)], false)) es d acc
      = (acc ++ preorderForest d es, false)
  | [], d, acc => by simp [traverseElements, preorderForest]
  | .mk i t w b s children :: rest, d, acc => by
      by_cases hc : children.isEmpty
      · have hcn : children = [] := by simpa using hc
        subst hcn
        simp [traverseElements, preorderForest, preorderElement,
          traverse_flatten rest d (acc ++ [(Element.mk i t w b s [], d)])]
      · have h1 := traverse_flatten children (d + 1)
          (acc ++ [(Element.mk i t w b s children, d)])
        have h2 := traverse_flatten rest d
          (acc ++ (Element.mk i t w b s children, d) ::
            preorderForest (d + 1) children)
        simp [traverseElements, hc, h1, h2, preorderForest, preorderElement,
          List.append_assoc]

/-- The traversal-order fixture `[section{column{w1, w2}}, container{w3}]`
from the element-traversal unit tests. -/
def c9fixture : List Element :=
  [.mk "sec1" "section" none none []
      [.mk "col1" "column" none none []
        [.mk "w1" "widget" (some "heading") none [("title", .str "Hello")] [],
         .mk "w2" "widget" (some "text-editor") none
           [("editor", .str "World")] []]],
   .mk "cont1" "container" none none []
      [.mk "w3" "widget" (some "heading") none [("title", .str "Hi")] []]]

/-- C9: `flattenElements` visits the forest depth-first in pre-order — it
agrees with the directly-defined pre-order listing for every forest, roots at
depth 0 — and on the fixture `[section{column{w1, w2}}, container{w3}]` it
yields exactly
`(sec1,0), (col1,1), (w1,2), (w2,2), (cont1,0), (w3,1)` in that order. -/
theorem C9_flatten_preorder :
    (∀ es : List Element, flattenElements es = preorderForest 0 es) ∧
    (flattenElements c9fixture).map (fun p => (p.1.id, p.2)) =
      [("sec1", 0), ("col1", 1), ("w1", 2), ("w2", 2), ("cont1", 0),
       ("w3", 1)] := by
  have hall : ∀ es : List Element, flattenElements es = preorderForest 0 es := by
    intro es
    simp [flattenElements, traverse_flatten]
  refine ⟨hall, ?_⟩
  rw [hall]
  simp [c9fixture, preorderForest, preorderElement]

/-! ## Structural characterization of lookup-by-id -/

mutual

/-- First pre-order node with the given id inside a subtree (direct
recursion, used to reason about `findElementById`). -/
def findFirstEl (id : String) : Element → Option Element
  | .mk i t w b s children =>
      if i = id then some (.mk i t w b s children)
      else findFirstList id children

/-- First pre-order node with the given id in a forest. -/
def findFirstList (id : String) : List Element → Option Element
  | [] => none
  | e :: rest =>
      match findFirstEl id e with
      | some x => some x
      | none => findFirstList id rest

end

theorem traverse_find (id : String) : ∀ (es : List Element) (d : Nat)
    (acc : Option Element),
    traverseElements
      (fun found el _ => if el.id = id then (some el, true) else (found, false))
      es d acc
      = match findFirstList id es with
        | some x => (some x, true)
        | none => (acc, false)
  | [], d, acc => by simp [traverseElements, findFirstList]
  | .mk i t w b s children :: rest, d, acc => by
      by_cases hid : i = id
      · simp [traverseElements, findFirstList, findFirstEl, hid]
      · by_cases hc : children.isEmpty
        · have hcn : children = [] := by simpa using hc
          subst hcn
          simp only [traverseElements, Element.id_mk, if_neg hid]
          simp [findFirstList, findFirstEl, hid,
            traverse_find id rest d acc]
        · simp only [traverseElements, Element.id_mk, if_neg hid, hc]
          rw [traverse_find id children (d + 1) acc]
          cases hfc : findFirstList id children with
          | some x => simp [findFirstList, findFirstEl, hid, hfc]
          | none =>
              simp [findFirstList, findFirstEl, hid, hfc,
                traverse_find id rest d acc]

/-- `findElementById` returns the first pre-order node carrying the id. -/
theorem findElementById_eq (es : List Element) (id : String) :
    findElementById es id = findFirstList id es := by
  rw [findElementById, traverse_find id es 0 none]
  cases findFirstList id es <;> rfl

mutual

/-- Replace the first pre-order node carrying the given id (the node a
reference obtained from `findElementById` points at) by `newEl`. -/
def replaceFirstEl (id : String) (newEl : Element) : Element → Element
  | .mk i t w b s children =>
      if i = id then newEl
      else .mk i t w b s (replaceFirstList id newEl children)

/-- Forest version of `replaceFirstEl`; only the first pre-order occurrence
is replaced. -/
def replaceFirstList (id : String) (newEl : Element) :
    List Element → List Element
  | [] => []
  | e :: rest =>
      match findFirstEl id e with
      | some _ => replaceFirstEl id newEl e :: rest
      | none => e :: replaceFirstList id newEl rest

end

mutual

/-- First pre-order node whose direct children contain the id, paired with
the child's index — the node the nested branch of `findElementParent`
halts at. -/
def findParentEl (id : String) : Element → Option (Element × Nat)
  | .mk i t w b s children =>
      match children.findIdx? (fun c => c.id = id) with
      | some idx => some (.mk i t w b s children, idx)
      | none => findParentList id children

/-- Forest version of `findParentEl`. -/
def findParentList (id : String) : List Element → Option (Element × Nat)
  | [] => none
  | e :: rest =>
      match findParentEl id e with
      | some r => some r
      | none => findParentList id rest

end

theorem traverse_parent (id : String) : ∀ (es : List Element) (d : Nat)
    (acc : Option (Option Element × Nat)),
    traverseElements
      (fun res el _ =>
        match el.children.findIdx? (fun child => child.id = id) with
        | some idx => (some (some el, idx), true)
        | none => (res, false))
      es d acc
      = match findParentList id es with
        | some r => (some (some r.1, r.2), true)
        | none => (acc, false)
  | [], d, acc => by simp [traverseElements, findParentList]
  | .mk i t w b s children :: rest, d, acc => by
      cases hidx : children.findIdx? (fun c => c.id = id) with
      | some idx =>
          simp [traverseElements, findParentList, findParentEl, hidx]
      | none =>
          by_cases hc : children.isEmpty
          · have hcn : children = [] := by simpa using hc
            subst hcn
            simp only [traverseElements, Element.children_mk, hidx]
            simp [findParentList, findParentEl, hidx,
              traverse_parent id rest d acc]
          · simp only [traverseElements, Element.children_mk, hidx, hc]
            rw [traverse_parent id children (d + 1) acc]
            cases hfc : findParentList id children with
            | some r =>
                simp [findParentList, findParentEl, hidx, hfc]
            | none =>
                simp [findParentList, findParentEl, hidx, hfc,
                  traverse_parent id rest d acc]

/-- `findElementParent` checks the top level first, then halts at the first
pre-order node whose direct children contain the id. -/
theorem findElementParent_eq (es : List Element) (id : String) :
    findElementParent es id =
      match es.findIdx? (fun e => e.id = id) with
      | some i => some (none, i)
      | none =>
          match findParentList id es with
          | some r => some (some r.1, r.2)
          | none => none := by
  rw [findElementParent]
  cases es.findIdx? (fun e => e.id = id) with
  | some i => rfl
  | none =>
      simp only []
      rw [traverse_parent id es 0 none]
      cases findParentList id es <;> rfl

mutual

/-- Does the subtree contain a node whose direct children include the id?
(The reachability test behind updating through a parent reference.) -/
def hasDirectParent (targetId : String) : Element → Bool
  | .mk _ _ _ _ _ children =>
      children.any (fun c => c.id = targetId) ||
        hasDirectParentList targetId children

/-- Forest version of `hasDirectParent`. -/
def hasDirectParentList (targetId : String) : List Element → Bool
  | [] => false
  | e :: rest => hasDirectParent targetId e || hasDirectParentList targetId rest

end

mutual

/-- Apply `f` in place to the node `findElementParent` halts at: the first
pre-order node whose direct children contain `targetId`.  Mutating through
the returned parent reference in JS updates exactly this node. -/
def updateParentEl (targetId : String) (f : Element → Element) :
    Element → Element
  | .mk i t w b s children =>
      if children.any (fun c => c.id = targetId) then
        f (.mk i t w b s children)
      else .mk i t w b s (updateParentList targetId f children)

/-- Forest version of `updateParentEl`. -/
def updateParentList (targetId : String) (f : Element → Element) :
    List Element → List Element
  | [] => []
  | e :: rest =>
      if hasDirectParent targetId e then updateParentEl targetId f e :: rest
      else e :: updateParentList targetId f rest

end

/-- JS `array.splice(idx, 0, x)`: insert at `idx`, appending when `idx`
is past the end. -/
def spliceAt (l : List Element) (idx : Nat) (x : Element) : List Element :=
  l.take idx ++ x :: l.drop idx

/-- Insert `x` next to the element `targetId` (before it when `isBefore`,
after it otherwise): splice into the root list when the target is
top-level, else splice into the children of the parent node located by
`findElementParent`.  Callers establish that the target exists, so the
`none` branch of the parent lookup is unreachable and keeps the forest. -/
def insertRelative (elements : List Element) (targetId : String)
    (isBefore : Bool) (x : Element) : List Element :=
  match findElementParent elements targetId with
  | none => elements
  | some (none, index) =>
      spliceAt elements (if isBefore then index else index + 1) x
  | some (some _, index) =>
      updateParentList targetId
        (fun p => p.withChildren
          (spliceAt p.children (if isBefore then index else index + 1) x))
        elements

/-! ## Document transaction wrapper (`src/utils/elementor-data-ops.ts`,
inlined at `src/src/__tests__/smoke/server-smoke.test.ts:610-701`)

The REST client `makeWordPressRequest` is an external collaborator; it is
abstracted as a partial map from resource kind to the stored resource, where
a GET or a POST against a missing resource throws (maps to `none`) and a
present resource exposes its `meta._elementor_data` field.  `JSON.parse` and
`JSON.stringify` are JS builtins, taken as parameters `jsonParse` (partial:
`none` models a throw) and `jsonStringify`.  Raw meta strings are modelled
as `List Char`. -/

/-- The `_elementor_data` meta field is either a raw string or an
already-parsed structured array. -/
inductive MetaValue : Type where
  | str (s : List Char) : MetaValue
  | arr (elems : List Element) : MetaValue

/-- A stored WordPress resource, reduced to the one field the engine
reads and writes. -/
structure Resource : Type where
  meta_elementor_data : Option MetaValue

/-- The three resource kinds probed, in order: `posts`, `pages`,
`elementor_library`. -/
inductive ResKind : Type where
  | posts : ResKind
  | pages : ResKind
  | library : ResKind
deriving DecidableEq

/-- The remote document store for one post id. -/
def Store : Type := ResKind → Option Resource

/-- Error classes of `fetchElementorData`: every probe failed, resource
found but no data, or the string failed to parse. -/
inductive FetchError : Type where
  | notFound : FetchError
  | noData : FetchError
  | parseError : FetchError
deriving DecidableEq

/-- The debug preamble separator, including its trailing newline
(`const SEPARATOR = '--- Elementor Data ---\n'`). -/
def SEPARATOR : List Char := ("--- Elementor Data ---\n").data

/-- JS `text.indexOf(sub)`: position of the first occurrence, `none` for
`-1`. -/
def indexOfSub (sub : List Char) : List Char → Option Nat
  | [] => if sub.isPrefixOf ([] : List Char) then some 0 else none
  | c :: rest =>
      if sub.isPrefixOf (c :: rest) then some 0
      else (indexOfSub sub rest).map (· + 1)

/-- `parseElementorResponse`: drop everything up to and including the first
separator occurrence when present, then `JSON.parse` the remainder. -/
def parseElementorResponse (jsonParse : List Char → Option (List Element))
    (text : List Char) : Option (List Element) :=
  let jsonPart :=
    match indexOfSub SEPARATOR text with
    | some separatorIndex => text.drop (separatorIndex + SEPARATOR.length)
    | none => text
  jsonParse jsonPart

/-- The `try posts / catch try pages / catch try elementor_library` GET
chain: the first kind whose retrieval succeeds. -/
def firstProbe (store : Store) : Option Resource :=
  match store ResKind.posts with
  | some r => some r
  | none =>
      match store ResKind.pages with
      | some r => some r
      | none => store ResKind.library

/-- `fetchElementorData`: probe the kinds in order; on the first retrieval
success, a falsy (absent or empty-string) `_elementor_data` throws the
no-data error, a string is parsed (throwing the parse error on failure), and
an already-structured array is returned as-is. -/
def fetchElementorData (jsonParse : List Char → Option (List Element))
    (store : Store) : Except FetchError (List Element) :=
  match firstProbe store with
  | none => Except.error FetchError.notFound
  | some post =>
      match post.meta_elementor_data with
      | none => Except.error FetchError.noData
      | some (MetaValue.str s) =>
          if s.isEmpty then Except.error FetchError.noData
          else
            match parseElementorResponse jsonParse s with
            | some tree => Except.ok tree
            | none => Except.error FetchError.parseError
      | some (MetaValue.arr l) => Except.ok l

/-- Error class of `saveElementorData`: every kind rejected the write. -/
inductive SaveError : Type where
  | saveFailed : SaveError
deriving DecidableEq

/-- The first kind whose POST succeeds — a write against the same store
model, where a POST to a missing resource throws just as the GET does. -/
def firstWritable (store : Store) : Option ResKind :=
  match store ResKind.posts with
  | some _ => some ResKind.posts
  | none =>
      match store ResKind.pages with
      | some _ => some ResKind.pages
      | none =>
          match store ResKind.library with
          | some _ => some ResKind.library
          | none => none

/-- Write `{ meta: { _elementor_data: payload } }` to one kind. -/
def writeStore (store : Store) (k : ResKind) (payload : List Char) : Store :=
  fun k' => if k' = k then some ⟨some (MetaValue.str payload)⟩ else store k'

/-- `saveElementorData`: `JSON.stringify` the tree and POST it, probing the
kinds in the same order and succeeding on the first accepted write. -/
def saveElementorData (store : Store) (data : List Element)
    (jsonStringify : List Element → List Char) : Except SaveError Store :=
  match firstWritable store with
  | none => Except.error SaveError.saveFailed
  | some k => Except.ok (writeStore store k (jsonStringify data))

/-- Errors escaping `withElementorData`: a fetch error, an exception thrown
by the mutator, or a save error. -/
inductive OpError (ε : Type) : Type where
  | fetchErr (e : FetchError) : OpError ε
  | mutErr (e : ε) : OpError ε
  | saveErr (e : SaveError) : OpError ε

/-- `withElementorData`: fetch, hand the elements array to the mutator, and
persist the same (possibly mutated) array.  The mutator's in-place mutation
is rendered as its returned tree.  The middle component records the argument
of every `saveElementorData` call made, in order. -/
def withElementorData {α ε : Type}
    (jsonParse : List Char → Option (List Element))
    (jsonStringify : List Element → List Char) (store : Store)
    (mutator : List Element → Except ε (α × List Element)) :
    Except (OpError ε) α × List (List Element) × Store :=
  match fetchElementorData jsonParse store with
  | Except.error e => (Except.error (OpError.fetchErr e), [], store)
  | Except.ok elements =>
      match mutator elements with
      | Except.error e => (Except.error (OpError.mutErr e), [], store)
      | Except.ok (result, elements2) =>
          match saveElementorData store elements2 jsonStringify with
          | Except.error e =>
              (Except.error (OpError.saveErr e), [elements2], store)
          | Except.ok store2 => (Except.ok result, [elements2], store2)

/-- C6: deserialization tolerance.  When the raw string contains the
separator, everything up to and including its first occurrence is discarded
and the remainder alone is parsed; a string without the separator is parsed
directly; an already-structured array in the meta field is returned as-is
without parsing; and, for the winning resource holding a non-empty string,
the parse-error class is raised exactly when the string fails to parse after
preamble stripping. -/
theorem C6_parse_tolerance (jsonParse : List Char → Option (List Element)) :
    (∀ preamble suffix : List Char,
      indexOfSub SEPARATOR (preamble ++ SEPARATOR ++ suffix) =
        some preamble.length →
      parseElementorResponse jsonParse (preamble ++ SEPARATOR ++ suffix) =
        jsonParse suffix) ∧
    (∀ text : List Char, indexOfSub SEPARATOR text = none →
      parseElementorResponse jsonParse text = jsonParse text) ∧
    (∀ (store : Store) (r : Resource) (l : List Element),
      firstProbe store = some r →
      r.meta_elementor_data = some (MetaValue.arr l) →
      fetchElementorData jsonParse store = Except.ok l) ∧
    (∀ (store : Store) (r : Resource) (s : List Char),
      firstProbe store = some r →
      r.meta_elementor_data = some (MetaValue.str s) → s ≠ [] →
      (fetchElementorData jsonParse store = Except.error FetchError.parseError
        ↔ parseElementorResponse jsonParse s = none)) := by
  refine ⟨?_, ?_, ?_, ?_⟩
  · intro preamble suffix h
    simp only [parseElementorResponse, h]
    congr 1
    have hlen : preamble.length + SEPARATOR.length =
        (preamble ++ SEPARATOR).length := by
      simp
    rw [hlen, List.drop_left]
  · intro text h
    simp [parseElementorResponse, h]
  · intro store r l hp hm
    simp [fetchElementorData, hp, hm]
  · intro store r s hp hm hs
    have hemp : s.isEmpty = false := by simpa using hs
    simp only [fetchElementorData, hp, hm, hemp, Bool.false_eq_true, if_false]
    cases hpr : parseElementorResponse jsonParse s <;> simp

/-- Concrete partial `JSON.parse` for the C6 witness: recognizes exactly the
two-character payload `[]` as the empty tree. -/
def c6jp : List Char → Option (List Element) := fun s =>
  if s = ("[]").data then some [] else none

/-- Witness for C6 at the parse-tolerance fixture: a garbage preamble
followed by the separator and a JSON payload parses like the payload
alone. -/
theorem C6_witness :
    parseElementorResponse c6jp
        (("garbage\n").data ++ SEPARATOR ++ ("[]").data) =
      c6jp ("[]").data ∧
    c6jp ("[]").data = some [] := by
  refine ⟨?_, rfl⟩
  exact (C6_parse_tolerance c6jp).1 ("garbage\n").data ("[]").data (by decide)

/-- Fixture element for the C2 counterexample. -/
def c2elem : Element := Element.mk "sec1" "section" none none [] []

/-- C2 counterexample store: the `posts` retrieval succeeds but carries no
`_elementor_data`, while `pages` holds a non-empty tree. -/
def c2store : Store := fun k =>
  match k with
  | ResKind.posts => some ⟨none⟩
  | ResKind.pages => some ⟨some (MetaValue.arr [c2elem])⟩
  | ResKind.library => none

/-- A `JSON.parse` stand-in for the C2 counterexample (never consulted). -/
def c2jp : List Char → Option (List Element) := fun _ => none

/-- C2 counterexample: `pages` is a kind whose retrieval succeeds and whose
serialized-tree field is non-empty, yet `fetchElementorData` does not return
its tree — it stops at `posts` (the first successful retrieval) and raises
the no-data error. -/
theorem C2_counterexample :
    c2store ResKind.pages = some ⟨some (MetaValue.arr [c2elem])⟩ ∧
    fetchElementorData c2jp c2store = Except.error FetchError.noData ∧
    fetchElementorData c2jp c2store ≠ Except.ok [c2elem] := by
  refine ⟨rfl, rfl, ?_⟩
  intro h
  rw [show fetchElementorData c2jp c2store = Except.error FetchError.noData
    from rfl] at h
  exact Except.noConfusion h

theorem firstProbe_none_iff (store : Store) :
    firstProbe store = none ↔
      store ResKind.posts = none ∧ store ResKind.pages = none ∧
        store ResKind.library = none := by
  unfold firstProbe
  cases hp : store ResKind.posts with
  | some r => simp [hp]
  | none =>
      cases hpg : store ResKind.pages with
      | some r => simp [hpg]
      | none => simp

/-- C2 (amended): probing stops at the first kind whose retrieval succeeds,
regardless of that resource's serialized-tree field.  Not-found is raised
iff every kind's retrieval fails; no-data is raised iff the first retrieved
resource's field is absent or the empty string (later kinds are never
consulted); once a kind succeeds, the result only depends on its resource;
and the winning resource's tree is returned — as-is when structured, parsed
when a non-empty string. -/
theorem C2_fetch_probe_order (jp : List Char → Option (List Element))
    (store : Store) :
    (fetchElementorData jp store = Except.error FetchError.notFound ↔
      store ResKind.posts = none ∧ store ResKind.pages = none ∧
        store ResKind.library = none) ∧
    (fetchElementorData jp store = Except.error FetchError.noData ↔
      ∃ r, firstProbe store = some r ∧
        (r.meta_elementor_data = none ∨
          r.meta_elementor_data = some (MetaValue.str []))) ∧
    (∀ r, store ResKind.posts = some r →
      fetchElementorData jp store = fetchElementorData jp (fun _ => some r)) ∧
    (store ResKind.posts = none → ∀ r, store ResKind.pages = some r →
      fetchElementorData jp store = fetchElementorData jp (fun _ => some r)) ∧
    (store ResKind.posts = none → store ResKind.pages = none →
      ∀ r, store ResKind.library = some r →
      fetchElementorData jp store = fetchElementorData jp (fun _ => some r)) ∧
    (∀ r l, firstProbe store = some r →
      r.meta_elementor_data = some (MetaValue.arr l) →
      fetchElementorData jp store = Except.ok l) ∧
    (∀ r s t, firstProbe store = some r →
      r.meta_elementor_data = some (MetaValue.str s) → s ≠ [] →
      parseElementorResponse jp s = some t →
      fetchElementorData jp store = Except.ok t) := by
  have hresult : ∀ r, firstProbe store = some r →
      fetchElementorData jp store =
        fetchElementorData jp (fun _ => some r) := by
    intro r hr
    unfold fetchElementorData
    rw [hr, show firstProbe (fun _ => some r) = some r from rfl]
  refine ⟨?_, ?_, ?_, ?_, ?_, ?_, ?_⟩
  · rw [← firstProbe_none_iff]
    unfold fetchElementorData
    cases hfp : firstProbe store with
    | none => simp
    | some r =>
        simp only [reduceCtorEq, iff_false]
        cases hm : r.meta_elementor_data with
        | none => simp
        | some v =>
            cases v with
            | arr l => simp
            | str s =>
                by_cases hemp : s.isEmpty
                · simp [hemp]
                · cases hpr : parseElementorResponse jp s <;> simp [hemp, hpr]
  · unfold fetchElementorData
    cases hfp : firstProbe store with
    | none => simp
    | some r =>
        cases hm : r.meta_elementor_data with
        | none => simp [hm]
        | some v =>
            cases v with
            | arr l => simp [hm]
            | str s =>
                by_cases hemp : s.isEmpty
                · have : s = [] := by simpa using hemp
                  simp [hemp, hm, this]
                · have hsne : s ≠ [] := by simpa using hemp
                  cases hpr : parseElementorResponse jp s <;>
                    simp [hemp, hpr, hm, hsne]
  · intro r hr
    exact hresult r (by simp [firstProbe, hr])
  · intro hp r hr
    exact hresult r (by simp [firstProbe, hp, hr])
  · intro hp hpg r hr
    exact hresult r (by simp [firstProbe, hp, hpg, hr])
  · intro r l hr hm
    simp [fetchElementorData, hr, hm]
  · intro r s t hr hm hsne hpr
    have hemp : s.isEmpty = false := by simpa using hsne
    simp [fetchElementorData, hr, hm, hemp, hpr]

/-- Concrete resource for the C2 witness. -/
def c2res : Resource := ⟨some (MetaValue.arr [])⟩

/-- Concrete store for the C2 witness: only `posts` exists. -/
def c2store2 : Store := fun k =>
  match k with
  | ResKind.posts => some c2res
  | _ => none

/-- Witness for the amended C2 at a concrete store: with `posts` present the
probe result only depends on the `posts` resource, and its structured tree
is returned. -/
theorem C2_witness :
    fetchElementorData c2jp c2store2 =
      fetchElementorData c2jp (fun _ => some c2res) ∧
    fetchElementorData c2jp c2store2 = Except.ok [] := by
  obtain ⟨-, -, h3, -, -, h6, -⟩ := C2_fetch_probe_order c2jp c2store2
  exact ⟨h3 c2res rfl, h6 c2res [] rfl rfl⟩

/-- C5: the save-then-fetch round trip.  If fetching yields tree `t`, the
codec round-trips on `t`, and the serialized payload is non-empty and free
of the separator (true of `JSON.stringify` output, which never contains a
raw newline), then saving `t` succeeds and an immediately following fetch
returns a tree equal to `t`. -/
theorem C5_roundtrip (jp : List Char → Option (List Element))
    (js : List Element → List Char) (store : Store) (t : List Element)
    (hfetch : fetchElementorData jp store = Except.ok t)
    (hcodec : jp (js t) = some t)
    (hnosep : indexOfSub SEPARATOR (js t) = none)
    (hne : (js t).isEmpty = false) :
    ∃ store2, saveElementorData store t js = Except.ok store2 ∧
      fetchElementorData jp store2 = Except.ok t := by
  cases hp : store ResKind.posts with
  | some r =>
      refine ⟨writeStore store ResKind.posts (js t),
        by simp [saveElementorData, firstWritable, hp], ?_⟩
      simp [fetchElementorData, firstProbe, writeStore, parseElementorResponse,
        hnosep, hne, hcodec]
  | none =>
      cases hpg : store ResKind.pages with
      | some r =>
          refine ⟨writeStore store ResKind.pages (js t),
            by simp [saveElementorData, firstWritable, hp, hpg], ?_⟩
          simp [fetchElementorData, firstProbe, writeStore,
            parseElementorResponse, hnosep, hne, hcodec, hp]
      | none =>
          cases hl : store ResKind.library with
          | some r =>
              refine ⟨writeStore store ResKind.library (js t),
                by simp [saveElementorData, firstWritable, hp, hpg, hl], ?_⟩
              simp [fetchElementorData, firstProbe, writeStore,
                parseElementorResponse, hnosep, hne, hcodec, hp, hpg]
          | none =>
              rw [fetchElementorData, show firstProbe store = none by
                simp [firstProbe, hp, hpg, hl]] at hfetch
              exact Except.noConfusion hfetch

/-- Concrete tree for the C5 witness. -/
def c5tree : List Element :=
  [Element.mk "sec1" "section" none none [] []]

/-- Concrete store for the C5 witness: `posts` holds the structured tree. -/
def c5store : Store := fun k =>
  match k with
  | ResKind.posts => some ⟨some (MetaValue.arr c5tree)⟩
  | _ => none

/-- Concrete stringify for the C5 witness. -/
def c5js : List Element → List Char := fun _ => ("X").data

/-- Concrete parse for the C5 witness, inverting `c5js` on `c5tree`. -/
def c5jp : List Char → Option (List Element) := fun s =>
  if s = ("X").data then some c5tree else none

/-- Witness for C5 at a concrete document and codec. -/
theorem C5_witness :
    ∃ store2, saveElementorData c5store c5tree c5js = Except.ok store2 ∧
      fetchElementorData c5jp store2 = Except.ok c5tree :=
  C5_roundtrip c5jp c5js c5store c5tree rfl rfl (by decide) (by decide)

/-- C10: `withElementorData` saves exactly once — with the same, possibly
mutated, elements array the mutator received — when the mutator returns
normally, and performs no save at all when the mutator throws: the persisted
store is then unchanged and the mutator's exception propagates. -/
theorem C10_withElementorData_save_once {α ε : Type}
    (jp : List Char → Option (List Element))
    (js : List Element → List Char) (store : Store)
    (mutator : List Element → Except ε (α × List Element))
    (elements : List Element)
    (hfetch : fetchElementorData jp store = Except.ok elements) :
    (∀ result tree2, mutator elements = Except.ok (result, tree2) →
      (withElementorData jp js store mutator).2.1 = [tree2]) ∧
    (∀ e, mutator elements = Except.error e →
      withElementorData jp js store mutator =
        (Except.error (OpError.mutErr e), [], store)) := by
  constructor
  · intro result tree2 hm
    simp only [withElementorData, hfetch, hm]
    cases saveElementorData store tree2 js <;> rfl
  · intro e hm
    simp only [withElementorData, hfetch, hm]

/-- Mutator for the C10 witness: appends a node and returns normally. -/
def c10mutator : List Element → Except String (Unit × List Element) :=
  fun elements =>
    Except.ok ((), elements ++ [Element.mk "new1" "section" none none [] []])

/-- Failing mutator for the C10 witness. -/
def c10mutatorErr : List Element → Except String (Unit × List Element) :=
  fun _ => Except.error "boom"

/-- Witness for C10: on the concrete store, the normal mutator leads to
exactly one save carrying the mutated array, and the throwing mutator leads
to no save and an unchanged store. -/
theorem C10_witness :
    (withElementorData c5jp c5js c5store c10mutator).2.1 =
      [c5tree ++ [Element.mk "new1" "section" none none [] []]] ∧
    withElementorData c5jp c5js c5store c10mutatorErr =
      (Except.error (OpError.mutErr "boom"), [], c5store) := by
  constructor
  · exact (C10_withElementorData_save_once c5jp c5js c5store c10mutator
      c5tree rfl).1 ()
      (c5tree ++ [Element.mk "new1" "section" none none [] []]) rfl
  · exact (C10_withElementorData_save_once c5jp c5js c5store c10mutatorErr
      c5tree rfl).2 "boom" rfl

/-! ## Clone operations (`src/tools/elementor-widgets.ts`,
`src/tools/elementor-sections.ts`) -/

/-- `deepClone` — `JSON.parse(JSON.stringify(obj))`: an equal, structurally
unshared copy.  Sharing is unobservable in the pure embedding, so it is the
identity. -/
def deepClone (e : Element) : Element := e

/-- The `insert_position` enum of `clone_widget`. -/
inductive ClonePos : Type where
  | before : ClonePos
  | after : ClonePos

/-- `clone_widget` (the tree mutation inside its `withElementorData`
mutator): locate the source widget, deep-copy it, call
`reassignElementIds` on the copy — whose returned fresh-id tree is
**discarded** (`elementor-widgets.ts:356`), advancing only the id stream —
then splice the copy next to the explicit target (before/after, default
after) or immediately after the original.  Returns the new forest, the
reported `cloned_widget_id` and the advanced stream position. -/
def clone_widget (gen : Nat → String) (ctr : Nat) (widget_id : String)
    (target_element_id : Option String) (insert_position : ClonePos)
    (elements : List Element) :
    Except String (List Element × String × Nat) :=
  match findElementById elements widget_id with
  | none => Except.error ("Widget " ++ widget_id ++ " not found")
  | some originalWidget =>
      let clonedWidget := deepClone originalWidget
      let ctr2 := (reassignElementIds gen ctr clonedWidget).2
      match target_element_id with
      | some tid =>
          match findElementById elements tid with
          | none => Except.error ("Target element " ++ tid ++ " not found")
          | some _ =>
              Except.ok
                (insertRelative elements tid
                  (match insert_position with
                   | ClonePos.before => true
                   | ClonePos.after => false) clonedWidget,
                 clonedWidget.id, ctr2)
      | none =>
          Except.ok (insertRelative elements widget_id false clonedWidget,
            clonedWidget.id, ctr2)

/-- First list entry satisfying the predicate together with its index
(`findIndex` plus the subsequent indexed read). -/
def findWithIdx (p : Element → Bool) : List Element → Option (Element × Nat)
  | [] => none
  | e :: rest =>
      if p e then some (e, 0)
      else (findWithIdx p rest).map (fun r => (r.1, r.2 + 1))

/-- `duplicate_section`: locate a top-level section by id, deep-copy it,
call `reassignElementIds` on the copy — whose returned fresh-id tree is
**discarded** (`elementor-sections.ts:219`) — and splice the copy at the
requested position, defaulting to immediately after the original. -/
def duplicate_section (gen : Nat → String) (ctr : Nat) (section_id : String)
    (position : Option Nat) (elements : List Element) :
    Except String (List Element × String × Nat) :=
  match findWithIdx (fun el => el.id = section_id) elements with
  | none =>
      Except.error ("Section with ID " ++ section_id ++
        " not found at top level")
  | some (originalSection, sectionIndex) =>
      let duplicatedSection := deepClone originalSection
      let ctr2 := (reassignElementIds gen ctr duplicatedSection).2
      let insertPosition :=
        match position with
        | some p => p
        | none => sectionIndex + 1
      Except.ok (spliceAt elements insertPosition duplicatedSection,
        duplicatedSection.id, ctr2)

/-- Id stream for the C1 evaluation (never appearing in the input tree). -/
def c1gen : Nat → String := fun n =>
  ["x0000000", "x1111111", "x2222222", "x3333333"].getD n "x9999999"

/-- C1 fixture: one section, one column, one widget. -/
def c1tree : List Element :=
  [Element.mk "s1" "section" none none []
    [Element.mk "c1" "column" none none []
      [Element.mk "w1" "widget" (some "heading") none [] []]]]

/-- The forest `clone_widget` produces on the C1 fixture. -/
def c1cloneResult : List Element :=
  [Element.mk "s1" "section" none none []
    [Element.mk "c1" "column" none none []
      [Element.mk "w1" "widget" (some "heading") none [] [],
       Element.mk "w1" "widget" (some "heading") none [] []]]]

/-- The forest `duplicate_section` produces on the C1 fixture. -/
def c1dupResult : List Element :=
  [Element.mk "s1" "section" none none []
    [Element.mk "c1" "column" none none []
      [Element.mk "w1" "widget" (some "heading") none [] []]],
   Element.mk "s1" "section" none none []
    [Element.mk "c1" "column" none none []
      [Element.mk "w1" "widget" (some "heading") none [] []]]]

/-- C1: both clone operations insert a copy that still carries every source
id — `reassignElementIds` does not mutate its argument and its returned
fresh-id copy is discarded at both call sites — so the persisted document
contains duplicate reachable ids: cloning `w1` yields two nodes with id
`w1`, and duplicating `s1` yields two of each of `s1`, `c1`, `w1`.  This
contradicts the claim (and the tools' own descriptions, "Duplicate a widget
with new IDs" / "generating new IDs for all elements"). -/
theorem C1_clone_reuses_source_ids :
    clone_widget c1gen 0 "w1" none ClonePos.after c1tree =
      Except.ok (c1cloneResult, "w1", 1) ∧
    forestIds c1cloneResult = ["s1", "c1", "w1", "w1"] ∧
    ¬ (forestIds c1cloneResult).Nodup ∧
    duplicate_section c1gen 0 "s1" none c1tree =
      Except.ok (c1dupResult, "s1", 3) ∧
    forestIds c1dupResult = ["s1", "c1", "w1", "s1", "c1", "w1"] ∧
    ¬ (forestIds c1dupResult).Nodup := by
  have h1 : findElementById c1tree "w1" =
      some (Element.mk "w1" "widget" (some "heading") none [] []) := by
    rw [findElementById_eq]
    rfl
  have h2 : findElementParent c1tree "w1" =
      some (some (Element.mk "c1" "column" none none []
        [Element.mk "w1" "widget" (some "heading") none [] []]), 0) := by
    rw [findElementParent_eq]
    rfl
  refine ⟨?_, by decide, by decide, rfl, by decide, by decide⟩
  rw [clone_widget, h1]
  dsimp only [deepClone]
  rw [insertRelative, h2]
  simp [updateParentList, updateParentEl, hasDirectParent, hasDirectParentList,
    spliceAt, reassignElementIds, reassignElementIdsList, c1tree,
    c1cloneResult, Element.withChildren]

/-! ## Reorder operations (`src/tools/elementor-elements.ts:104-148`,
`src/tools/elementor-sections.ts:238-272`) -/

/-- `elementMap.get(id)`: the `Map` built from the child entries assigns
each id its **last** occurrence (later `set` calls overwrite).  The default
is never reached on the guarded path (`get(id)!` after a `has` check). -/
def lookupLastChild (children : List Element) (id : String) : Element :=
  ((children.filter (fun c => c.id = id)).getLast?).getD defaultElement

/-- The child-list rebuild shared verbatim by both reorder tools: the
mentioned ids in their given order, then the children not mentioned, in
their prior relative order. -/
def reorderList (children : List Element) (ids : List String) : List Element :=
  ids.map (lookupLastChild children) ++
    children.filter (fun el => !(ids.contains el.id))

/-- Reorder failures: container id unresolved, or listed ids that are not
direct children, aggregated into one error. -/
inductive ReorderError : Type where
  | containerNotFound (id : String) : ReorderError
  | missingIds (ids : List String) : ReorderError

/-- `reorder_elements` mutator: resolve the container, reject with one
error naming every listed id that is not a direct child, else assign the
rebuilt list to the container's `elements` and report the new order. -/
def reorder_elements (container_id : String) (element_ids : List String)
    (elements : List Element) :
    Except ReorderError (List String × List Element) :=
  match findElementById elements container_id with
  | none => Except.error (ReorderError.containerNotFound container_id)
  | some container =>
      let missingIds := element_ids.filter
        (fun id => !((container.children.map Element.id).contains id))
      if missingIds.isEmpty then
        let reordered := reorderList container.children element_ids
        Except.ok (reordered.map Element.id,
          replaceFirstList container_id (container.withChildren reordered)
            elements)
      else Except.error (ReorderError.missingIds missingIds)

/-- `reorder_top_level_sections`, pure part: the same validation and
rebuild against the root list; the handler then saves the rebuilt list. -/
def reorder_top_level_sections (section_ids : List String)
    (elements : List Element) :
    Except ReorderError (List String × List Element) :=
  let missingIds := section_ids.filter
    (fun id => !((elements.map Element.id).contains id))
  if missingIds.isEmpty then
    let reordered := reorderList elements section_ids
    Except.ok (reordered.map Element.id, reordered)
  else Except.error (ReorderError.missingIds missingIds)

theorem filter_id_eq_nil (children : List Element) (i : String)
    (h : i ∉ children.map Element.id) :
    children.filter (fun c => c.id = i) = [] := by
  induction children with
  | nil => rfl
  | cons c rest ih =>
      simp only [List.map_cons, List.mem_cons, not_or] at h
      simp [List.filter_cons, Ne.symm h.1, ih h.2]

theorem lookupLastChild_find (children : List Element) (i : String)
    (hnodup : (children.map Element.id).Nodup)
    (hm : i ∈ children.map Element.id) :
    children.find? (fun c => c.id = i) = some (lookupLastChild children i) := by
  induction children with
  | nil => simp at hm
  | cons c rest ih =>
      simp only [List.map_cons, List.nodup_cons] at hnodup
      by_cases hc : c.id = i
      · have hrest : rest.filter (fun x => x.id = i) = [] := by
          apply filter_id_eq_nil
          rw [← hc]
          exact hnodup.1
        simp [List.find?_cons, hc, lookupLastChild, List.filter_cons, hrest]
      · have hm' : i ∈ rest.map Element.id := by
          simp only [List.map_cons, List.mem_cons] at hm
          rcases hm with h | h
          · exact absurd h.symm hc
          · exact h
        simpa [List.find?_cons, hc, lookupLastChild, List.filter_cons]
          using ih hnodup.2 hm'

theorem map_lookup_eq_filterMap (children : List Element) (ids : List String)
    (hnodup : (children.map Element.id).Nodup)
    (hmem : ∀ i ∈ ids, i ∈ children.map Element.id) :
    ids.map (lookupLastChild children) =
      ids.filterMap (fun i => children.find? (fun c => c.id = i)) := by
  induction ids with
  | nil => rfl
  | cons i rest ih =>
      have hfind := lookupLastChild_find children i hnodup (hmem i (by simp))
      simp [List.filterMap_cons, hfind,
        ih (fun j hj => hmem j (by simp [hj]))]

/-- Under unique child ids, the code's last-wins `Map` lookup agrees with
"the child named by each id": the rebuilt list is the mentioned children in
the given order followed by the unmentioned ones in prior order. -/
theorem reorderList_spec (children : List Element) (ids : List String)
    (hnodup : (children.map Element.id).Nodup)
    (hmem : ∀ i ∈ ids, i ∈ children.map Element.id) :
    reorderList children ids =
      ids.filterMap (fun i => children.find? (fun c => c.id = i)) ++
        children.filter (fun el => !(ids.contains el.id)) := by
  unfold reorderList
  rw [map_lookup_eq_filterMap children ids hnodup hmem]

theorem missing_filter_nil (childIds : List String) (ids : List String)
    (hmem : ∀ i ∈ ids, i ∈ childIds) :
    ids.filter (fun id => !(childIds.contains id)) = [] := by
  induction ids with
  | nil => rfl
  | cons i rest ih =>
      have hi : i ∈ childIds := hmem i (by simp)
      simp [List.filter_cons, hi]
      exact fun j hj => hmem j (List.mem_cons_of_mem i hj)

/-- C4: for both reorder operations, when every listed id names a direct
child (top-level element) the new order is exactly the listed children in
the given order followed by the unmentioned children in their prior
relative order, written back at the container (resp. the root); when some
listed id is not a direct child, the operation fails with one error naming
exactly the missing ids, and — being an exception thrown before any
mutation or save — the fetch-mutate-save composition performs no save and
leaves the persisted store unchanged. -/
theorem C4_reorder_mentioned_first (elements : List Element) (cid : String)
    (ids : List String) (container : Element)
    (hfind : findElementById elements cid = some container) :
    ((∀ i ∈ ids, i ∈ container.children.map Element.id) →
      (container.children.map Element.id).Nodup →
      reorder_elements cid ids elements =
        Except.ok ((reorderList container.children ids).map Element.id,
          replaceFirstList cid
            (container.withChildren (reorderList container.children ids))
            elements) ∧
      reorderList container.children ids =
        ids.filterMap (fun i => container.children.find? (fun c => c.id = i))
          ++ container.children.filter (fun el => !(ids.contains el.id))) ∧
    (∀ m, ids.filter
        (fun i => !((container.children.map Element.id).contains i)) = m →
      m ≠ [] →
      reorder_elements cid ids elements =
        Except.error (ReorderError.missingIds m)) ∧
    (∀ (e : ReorderError) jp js store,
      reorder_elements cid ids elements = Except.error e →
      fetchElementorData jp store = Except.ok elements →
      withElementorData jp js store (reorder_elements cid ids) =
        (Except.error (OpError.mutErr e), [], store)) ∧
    ((∀ i ∈ ids, i ∈ elements.map Element.id) →
      (elements.map Element.id).Nodup →
      reorder_top_level_sections ids elements =
        Except.ok ((reorderList elements ids).map Element.id,
          reorderList elements ids) ∧
      reorderList elements ids =
        ids.filterMap (fun i => elements.find? (fun c => c.id = i)) ++
          elements.filter (fun el => !(ids.contains el.id))) ∧
    (∀ m, ids.filter (fun i => !((elements.map Element.id).contains i)) = m →
      m ≠ [] →
      reorder_top_level_sections ids elements =
        Except.error (ReorderError.missingIds m)) ∧
    (∀ (e : ReorderError) jp js store,
      reorder_top_level_sections ids elements = Except.error e →
      fetchElementorData jp store = Except.ok elements →
      withElementorData jp js store (fun els =>
        reorder_top_level_sections ids els) =
        (Except.error (OpError.mutErr e), [], store)) := by
  refine ⟨?_, ?_, ?_, ?_, ?_, ?_⟩
  · intro hmem hnodup
    have hnil := missing_filter_nil (container.children.map Element.id) ids hmem
    refine ⟨?_, reorderList_spec container.children ids hnodup hmem⟩
    rw [reorder_elements, hfind]
    dsimp only []
    rw [hnil]
    rfl
  · intro m hm hne
    rw [reorder_elements, hfind]
    simp only [hm]
    have : m.isEmpty = false := by
      cases m with
      | nil => exact absurd rfl hne
      | cons a l => rfl
    simp [this]
  · intro e jp js store herr hfetch
    simp only [withElementorData, hfetch, herr]
  · intro hmem hnodup
    have hnil := missing_filter_nil (elements.map Element.id) ids hmem
    refine ⟨?_, reorderList_spec elements ids hnodup hmem⟩
    rw [reorder_top_level_sections]
    dsimp only []
    rw [hnil]
    rfl
  · intro m hm hne
    rw [reorder_top_level_sections]
    simp only [hm]
    have : m.isEmpty = false := by
      cases m with
      | nil => exact absurd rfl hne
      | cons a l => rfl
    simp [this]
  · intro e jp js store herr hfetch
    simp only [withElementorData, hfetch, herr]

/-- The reorder fixture container: children `a, b, c, d`. -/
def c4container : Element :=
  Element.mk "cont" "section" none none []
    [Element.mk "a" "widget" (some "heading") none [] [],
     Element.mk "b" "widget" (some "heading") none [] [],
     Element.mk "c" "widget" (some "heading") none [] [],
     Element.mk "d" "widget" (some "heading") none [] []]

/-- The reorder fixture forest. -/
def c4tree : List Element := [c4container]

/-- The expected forest after reordering with `[c, a]`. -/
def c4expected : List Element :=
  [Element.mk "cont" "section" none none []
    [Element.mk "c" "widget" (some "heading") none [] [],
     Element.mk "a" "widget" (some "heading") none [] [],
     Element.mk "b" "widget" (some "heading") none [] [],
     Element.mk "d" "widget" (some "heading") none [] []]]

/-- Witness for C4: children `[a,b,c,d]` reordered by `[c,a]` become
`[c,a,b,d]`. -/
theorem C4_witness :
    reorder_elements "cont" ["c", "a"] c4tree =
      Except.ok (["c", "a", "b", "d"], c4expected) := by
  have h := (C4_reorder_mentioned_first c4tree "cont" ["c", "a"] c4container
    (by rw [findElementById_eq]; rfl)).1 (by decide) (by decide)
  rw [h.1]
  rfl

/-! ## Batch update (`src/tools/elementor-widgets.ts:520-569`) -/

/-- One entry of `widgets_updates`. -/
structure WidgetUpdate : Type where
  widget_id : String
  widget_settings : Option (List (String × JsonVal))
  widget_content : Option String

/-- JS object spread `{...settings, ...newSettings}`: sequential key-wise
overwrite, nested objects replaced wholesale. -/
def mergeSettings (s ns : List (String × JsonVal)) :
    List (String × JsonVal) :=
  ns.foldl (fun acc kv => setKey acc kv.1 kv.2) s

mutual

/-- `findElementInSubtree`: the node itself if its id matches, else the
first pre-order match among its descendants. -/
def findElementInSubtree (element : Element) (targetId : String) :
    Option Element :=
  match element with
  | .mk i t w b s children =>
      if i = targetId then some (.mk i t w b s children)
      else findElementInSubtreeList children targetId

/-- Child-list leg of `findElementInSubtree`. -/
def findElementInSubtreeList : List Element → String → Option Element
  | [], _ => none
  | child :: rest, targetId =>
      match findElementInSubtree child targetId with
      | some found => some found
      | none => findElementInSubtreeList rest targetId

end

mutual

/-- Apply `f` in place to the node `findElementInSubtree` finds — the first
pre-order node of the subtree carrying the target id. -/
def updateInSubtree (targetId : String) (f : Element → Element) :
    Element → Element
  | .mk i t w b s children =>
      if i = targetId then f (.mk i t w b s children)
      else .mk i t w b s (updateInSubtreeList targetId f children)

/-- Child-list leg of `updateInSubtree`. -/
def updateInSubtreeList (targetId : String) (f : Element → Element) :
    List Element → List Element
  | [] => []
  | child :: rest =>
      match findElementInSubtree child targetId with
      | some _ => updateInSubtree targetId f child :: rest
      | none => child :: updateInSubtreeList targetId f rest

end

/-- The per-widget body of the batch loop: merge `widget_settings` into the
widget's settings, then set `widget_content` via the content mapper with
the legacy `html`/`text-editor`/`heading` fallbacks; in batch mode a
fallback miss is silently skipped. -/
def applyWidgetUpdate (update : WidgetUpdate) (widget : Element) : Element :=
  let widget1 :=
    match update.widget_settings with
    | some ns => widget.withSettings (mergeSettings widget.settings ns)
    | none => widget
  match update.widget_content with
  | none => widget1
  | some content =>
      let r := setWidgetContent widget1 (JsonVal.str content)
      if r.2 then r.1
      else
        match widget1.widgetType with
        | some "html" =>
            widget1.withSettings
              (setKey widget1.settings "html" (JsonVal.str content))
        | some "text-editor" =>
            widget1.withSettings
              (setKey widget1.settings "editor" (JsonVal.str content))
        | some "heading" =>
            widget1.withSettings
              (setKey widget1.settings "title" (JsonVal.str content))
        | _ => widget1

/-- One iteration of the `update_elementor_section` loop over the evolving
section subtree and the accumulated `updated` / `not_found` id lists. -/
def batchStep (acc : Element × List String × List String)
    (update : WidgetUpdate) : Element × List String × List String :=
  match findElementInSubtree acc.1 update.widget_id with
  | none => (acc.1, acc.2.1, acc.2.2 ++ [update.widget_id])
  | some _ =>
      (updateInSubtree update.widget_id (applyWidgetUpdate update) acc.1,
       acc.2.1 ++ [update.widget_id], acc.2.2)

/-- `update_elementor_section` mutator: resolve the section once, fold the
updates over its subtree — recording missing ids instead of aborting — and
write the updated subtree back at the section's position. -/
def update_elementor_section (section_id : String)
    (widgets_updates : List WidgetUpdate) (elements : List Element) :
    Except String ((List String × List String) × List Element) :=
  match findElementById elements section_id with
  | none => Except.error ("Section " ++ section_id ++ " not found")
  | some sectionEl =>
      let r := widgets_updates.foldl batchStep (sectionEl, [], [])
      Except.ok ((r.2.1, r.2.2), replaceFirstList section_id r.1 elements)

mutual

theorem findInSubtree_isSome : ∀ (e : Element) (id : String),
    (findElementInSubtree e id).isSome = true ↔ id ∈ elementIds e
  | .mk i t w b s children, id => by
      by_cases hid : i = id
      · simp [findElementInSubtree, elementIds, hid]
      · simp only [findElementInSubtree, if_neg hid, elementIds]
        rw [findInSubtreeList_isSome children id]
        simp [Ne.symm hid]

theorem findInSubtreeList_isSome : ∀ (es : List Element) (id : String),
    (findElementInSubtreeList es id).isSome = true ↔ id ∈ forestIds es
  | [], id => by simp [findElementInSubtreeList, forestIds]
  | e :: rest, id => by
      simp only [findElementInSubtreeList, forestIds, List.mem_append]
      rw [← findInSubtree_isSome e id, ← findInSubtreeList_isSome rest id]
      cases hf : findElementInSubtree e id <;> simp [hf]

end

/-- `setWidgetContent` only rewrites the widget's settings. -/
theorem setWidgetContent_shape (w : Element) (c : JsonVal) :
    ∃ s2, (setWidgetContent w c).1 = w.withSettings s2 := by
  obtain ⟨i, t, wt, b, s, es⟩ := w
  unfold setWidgetContent
  cases wt with
  | none => exact ⟨s, rfl⟩
  | some wtv =>
      dsimp only [Element.widgetType_mk]
      by_cases hemp : wtv = ""
      · rw [if_pos hemp]
        exact ⟨s, rfl⟩
      · rw [if_neg hemp]
        cases WIDGET_CONTENT_FIELDS wtv with
        | none => exact ⟨s, rfl⟩
        | some field => exact ⟨_, rfl⟩

/-- `applyWidgetUpdate` only rewrites the widget's settings: id, elType,
widgetType, isInner and children are untouched. -/
theorem applyWidgetUpdate_shape (u : WidgetUpdate) (w : Element) :
    ∃ s2, applyWidgetUpdate u w = w.withSettings s2 := by
  obtain ⟨i, t, wt, b, s, es⟩ := w
  have hw1 : ∃ s1, (match u.widget_settings with
      | some ns => (Element.mk i t wt b s es).withSettings
          (mergeSettings (Element.mk i t wt b s es).settings ns)
      | none => Element.mk i t wt b s es) = Element.mk i t wt b s1 es := by
    cases u.widget_settings with
    | none => exact ⟨s, rfl⟩
    | some ns => exact ⟨_, rfl⟩
  obtain ⟨s1, hs1⟩ := hw1
  unfold applyWidgetUpdate
  rw [hs1]
  cases u.widget_content with
  | none => exact ⟨s1, rfl⟩
  | some content =>
      dsimp only []
      obtain ⟨s3, hs3⟩ := setWidgetContent_shape (Element.mk i t wt b s1 es)
        (JsonVal.str content)
      cases hr : setWidgetContent (Element.mk i t wt b s1 es)
          (JsonVal.str content) with
      | mk w2 bb =>
          rw [hr] at hs3
          dsimp only [] at hs3
          dsimp only []
          cases bb with
          | true =>
              refine ⟨s3, ?_⟩
              rw [if_pos rfl, hs3]
              rfl
          | false =>
              rw [if_neg (by simp)]
              dsimp only [Element.widgetType_mk, Element.settings_mk]
              split
              · exact ⟨_, rfl⟩
              · exact ⟨_, rfl⟩
              · exact ⟨_, rfl⟩
              · exact ⟨s1, rfl⟩

mutual

theorem updateInSubtree_ids (targetId : String) (f : Element → Element)
    (hf : ∀ w, ∃ s2, f w = w.withSettings s2) :
    ∀ e, elementIds (updateInSubtree targetId f e) = elementIds e
  | .mk i t w b s children => by
      by_cases hid : i = targetId
      · subst hid
        obtain ⟨s2, hs2⟩ := hf (Element.mk i t w b s children)
        simp [updateInSubtree, hs2, Element.withSettings, elementIds]
      · simp [updateInSubtree, hid, elementIds,
          updateInSubtreeList_ids targetId f hf children]

theorem updateInSubtreeList_ids (targetId : String) (f : Element → Element)
    (hf : ∀ w, ∃ s2, f w = w.withSettings s2) :
    ∀ es, forestIds (updateInSubtreeList targetId f es) = forestIds es
  | [] => rfl
  | e :: rest => by
      cases hfe : findElementInSubtree e targetId with
      | some x =>
          simp [updateInSubtreeList, hfe, forestIds,
            updateInSubtree_ids targetId f hf e]
      | none =>
          simp [updateInSubtreeList, hfe, forestIds,
            updateInSubtreeList_ids targetId f hf rest]

end

/-- The batch fold records exactly the found ids in `updated` and exactly
the missing ids in `not_found`, in order, while the subtree's id set is
unchanged by the per-widget updates. -/
theorem batch_fold (us : List WidgetUpdate) :
    ∀ (s : Element) (upd nf : List String),
    elementIds (us.foldl batchStep (s, upd, nf)).1 = elementIds s ∧
    (us.foldl batchStep (s, upd, nf)).2.1 =
      upd ++ (us.filter (fun u =>
        (elementIds s).contains u.widget_id)).map WidgetUpdate.widget_id ∧
    (us.foldl batchStep (s, upd, nf)).2.2 =
      nf ++ (us.filter (fun u =>
        !((elementIds s).contains u.widget_id))).map
        WidgetUpdate.widget_id := by
  induction us with
  | nil => intro s upd nf; simp
  | cons u rest ih =>
      intro s upd nf
      by_cases hmem : u.widget_id ∈ elementIds s
      · have hsome : (findElementInSubtree s u.widget_id).isSome = true :=
          (findInSubtree_isSome s u.widget_id).mpr hmem
        obtain ⟨x, hx⟩ := Option.isSome_iff_exists.mp hsome
        have hstep : batchStep (s, upd, nf) u =
            (updateInSubtree u.widget_id (applyWidgetUpdate u) s,
             upd ++ [u.widget_id], nf) := by
          simp [batchStep, hx]
        have hids : elementIds
            (updateInSubtree u.widget_id (applyWidgetUpdate u) s) =
            elementIds s :=
          updateInSubtree_ids u.widget_id (applyWidgetUpdate u)
            (applyWidgetUpdate_shape u) s
        obtain ⟨ih1, ih2, ih3⟩ := ih
          (updateInSubtree u.widget_id (applyWidgetUpdate u) s)
          (upd ++ [u.widget_id]) nf
        rw [List.foldl_cons, hstep]
        refine ⟨by rw [ih1, hids], ?_, ?_⟩
        · rw [ih2, hids]
          simp [List.filter_cons, hmem]
        · rw [ih3, hids]
          simp [List.filter_cons, hmem]
      · have hnone : findElementInSubtree s u.widget_id = none := by
          cases hfe : findElementInSubtree s u.widget_id with
          | none => rfl
          | some x =>
              exact absurd ((findInSubtree_isSome s u.widget_id).mp
                (by simp [hfe])) hmem
        have hstep : batchStep (s, upd, nf) u =
            (s, upd, nf ++ [u.widget_id]) := by
          simp [batchStep, hnone]
        obtain ⟨ih1, ih2, ih3⟩ := ih s upd (nf ++ [u.widget_id])
        rw [List.foldl_cons, hstep]
        refine ⟨ih1, ?_, ?_⟩
        · rw [ih2]
          simp [List.filter_cons, hmem]
        · rw [ih3]
          simp [List.filter_cons, hmem]

/-- C7: a batch update whose container id resolves never aborts: every
update id missing from the container's subtree is recorded in `not_found`,
every found id receives the per-widget treatment and is recorded in
`updated`, and the result lists exactly the found ids in `updated` and
exactly the missing ids in `not_found`, in submission order; the updated
subtree is written back at the section's position. -/
theorem C7_update_section_batch (elements : List Element) (sid : String)
    (updates : List WidgetUpdate) (sectionEl : Element)
    (hfind : findElementById elements sid = some sectionEl) :
    update_elementor_section sid updates elements =
      Except.ok
        (((updates.filter (fun u =>
             (elementIds sectionEl).contains u.widget_id)).map
            WidgetUpdate.widget_id,
          (updates.filter (fun u =>
             !((elementIds sectionEl).contains u.widget_id))).map
            WidgetUpdate.widget_id),
         replaceFirstList sid (updates.foldl batchStep (sectionEl, [], [])).1
           elements) := by
  obtain ⟨-, h2, h3⟩ := batch_fold updates sectionEl [] []
  rw [update_elementor_section, hfind]
  dsimp only []
  rw [h2, h3]
  simp

/-- The batch fixture section: a mapped heading widget and an
unmapped-kind widget. -/
def c7section : Element :=
  Element.mk "sec" "section" none none []
    [Element.mk "w1" "widget" (some "heading") none
      [("title", JsonVal.str "Old"), ("color", JsonVal.str "blue")] [],
     Element.mk "w2" "widget" (some "unmapped-kind") none
      [("foo", JsonVal.str "bar")] []]

/-- The batch fixture forest. -/
def c7tree : List Element := [c7section]

/-- Two valid updates (one with a content set that silently falls through
on the unmapped kind) and one invalid id. -/
def c7updates : List WidgetUpdate :=
  [⟨"w1", some [("color", JsonVal.str "red")], some "New Title"⟩,
   ⟨"w2", some [("baz", JsonVal.str "qux")], some "Ignored"⟩,
   ⟨"missing", none, some "X"⟩]

/-- Expected forest: both valid widgets merged; the unmapped widget's
content request skipped without error. -/
def c7result : List Element :=
  [Element.mk "sec" "section" none none []
    [Element.mk "w1" "widget" (some "heading") none
      [("title", JsonVal.str "New Title"), ("color", JsonVal.str "red")] [],
     Element.mk "w2" "widget" (some "unmapped-kind") none
      [("foo", JsonVal.str "bar"), ("baz", JsonVal.str "qux")] []]]

/-- Witness for C7: two valid ids and one invalid id yield `updated`
exactly the two valid ids, `not_found` exactly the invalid one, and the two
valid nodes' settings reflect the requested merge and content set. -/
theorem C7_witness :
    update_elementor_section "sec" c7updates c7tree =
      Except.ok ((["w1", "w2"], ["missing"]), c7result) := by
  have h := C7_update_section_batch c7tree "sec" c7updates c7section
    (by rw [findElementById_eq]; rfl)
  rw [h]
  rfl

end ElementorSpec
